import Mathlib

/-!
Verification of the JSON-to-Dart class generator
(`src/src/components/JsonToDartConverter.tsx`).

The core of the repository is the pure function `generateDartClass` together
with its inner helpers `generateFieldType`, `capitalizeFirst`,
`generateNestedClasses` and `generateClassContent`, wrapped by the UI handler
`convertJsonToDart`.  This file gives a shallow embedding of those functions
over a `Json` value tree (the result of `JSON.parse`, which itself is
abstracted as a parameter) and proves/refutes the frozen claims about them.

JavaScript dynamic checks are modelled explicitly:
the test `typeof v === 'object'` is true for objects, arrays AND `null`;
`Object.entries` throws on `null`, returns index/element pairs on arrays,
index/character pairs on strings and `[]` on numbers and booleans.
A thrown exception is modelled as `Option.none`.
-/

/-- A parsed JSON value tree, as produced by `JSON.parse`.  A number carries
only its `Number.isInteger` flag (the only thing the generator inspects).
Object fields are listed in `Object.entries` enumeration order, which is the
order every loop of the source iterates in. -/
inductive Json where
  | null : Json
  | boolean : Bool → Json
  | number : Bool → Json
  | str : String → Json
  | arr : List Json → Json
  | obj : List (String × Json) → Json
deriving Repr

/-- JavaScript `typeof v === 'object'`: true for plain objects, arrays and
`null`. -/
def typeofObject : Json → Bool
  | .obj _ => true
  | .arr _ => true
  | .null => true
  | _ => false

/-- JavaScript `v === null`. -/
def isNull : Json → Bool
  | .null => true
  | _ => false

/-- The guard `typeof value === 'object' && value !== null && !Array.isArray(value)`
used at lines 83, 124 and 141 of the source: a plain (non-null, non-array)
object. -/
def isPlainObject : Json → Bool
  | .obj _ => true
  | _ => false

/-- The guard `Array.isArray(value) && value.length > 0 && typeof value[0] === 'object'`
used at lines 89, 127 and 143 of the source.  Note: no null check on
`value[0]`, and `typeof` of an array is `'object'`. -/
def isArrayOfObjects : Json → Bool
  | .arr (firstItem :: _) => typeofObject firstItem
  | _ => false

/-- Mirrors `capitalizeFirst` (source lines 75-77):
`str.charAt(0).toUpperCase() + str.slice(1)`.  On the empty string,
`charAt(0)` is `""` and the result is `""`. -/
def capitalizeFirst (str : String) : String :=
  match str.data with
  | [] => ""
  | c :: cs => String.mk (c.toUpper :: cs)

/-- Mirrors `key.replace(/s$/, '')` (source lines 64, 90, 128):
drop a single trailing lowercase `s` when present. -/
def stripTrailingS (key : String) : String :=
  if key.data.getLast? = some 's' then String.mk key.data.dropLast else key

/-- A single-quote character, used by the generated Dart string literals. -/
def singleQuote : String := String.singleton (Char.ofNat 39)

/-- Mirrors `generateFieldType` (source lines 53-73).  The branch order is the
source's: null, string, number, boolean, array, object.  Inside the array
branch the test `typeof firstItem === 'object' && firstItem !== null` is true
for objects AND for arrays, so both produce the named-class list type; only
scalars and null fall through to the recursive call. -/
def generateFieldType : Json → String → String
  | .null, _ => "dynamic"
  | .str _, _ => "String"
  | .number isInteger, _ => if isInteger then "int" else "double"
  | .boolean _, _ => "bool"
  | .arr value, key =>
    match value with
    | [] => "List<dynamic>"
    | firstItem :: _ =>
      if typeofObject firstItem && !isNull firstItem then
        "List<" ++ capitalizeFirst (stripTrailingS key) ++ ">"
      else
        "List<" ++ generateFieldType firstItem key ++ ">"
  | .obj _, key => capitalizeFirst key
termination_by structural v _ => v

/-- One field declaration line (source line 107):
`  final ${fieldType}? ${key};`. -/
def fieldDeclLine (key : String) (value : Json) : String :=
  "  final " ++ generateFieldType value key ++ "? " ++ key ++ ";\n"

/-- One assignment line of the generated `fromJson` factory
(source lines 123-133), following the source's three-way branch. -/
def fromJsonLine (key : String) (value : Json) : String :=
  if isPlainObject value then
    "      " ++ key ++ ": json[" ++ singleQuote ++ key ++ singleQuote ++
      "] != null ? " ++ capitalizeFirst key ++ ".fromJson(json[" ++
      singleQuote ++ key ++ singleQuote ++ "]) : null,\n"
  else if isArrayOfObjects value then
    "      " ++ key ++ ": json[" ++ singleQuote ++ key ++ singleQuote ++
      "] != null ? (json[" ++ singleQuote ++ key ++ singleQuote ++
      "] as List).map((item) => " ++ capitalizeFirst (stripTrailingS key) ++
      ".fromJson(item)).toList() : null,\n"
  else
    "      " ++ key ++ ": json[" ++ singleQuote ++ key ++ singleQuote ++ "],\n"

/-- One entry line of the generated `toJson` method (source lines 140-148). -/
def toJsonLine (key : String) (value : Json) : String :=
  if isPlainObject value then
    "      " ++ singleQuote ++ key ++ singleQuote ++ ": " ++ key ++ "?.toJson(),\n"
  else if isArrayOfObjects value then
    "      " ++ singleQuote ++ key ++ singleQuote ++ ": " ++ key ++
      "?.map((item) => item.toJson()).toList(),\n"
  else
    "      " ++ singleQuote ++ key ++ singleQuote ++ ": " ++ key ++ ",\n"

/-- Concatenation of a per-entry line over an entry list, mirroring the
`for (const [key, value] of Object.entries(obj))` accumulation loops. -/
def concatMapEntries (f : String → Json → String) : List (String × Json) → String
  | [] => ""
  | (key, value) :: rest => f key value ++ concatMapEntries f rest

/-- The constructor block (source lines 112-118). -/
def ctorText (className : String) (entries : List (String × Json)) : String :=
  "  " ++ className ++ "(\x7b\n" ++
  concatMapEntries (fun key _ => "    this." ++ key ++ ",\n") entries ++
  "  \x7d);\n\n"

/-- The `fromJson` factory block (source lines 120-135). -/
def fromJsonText (className : String) (entries : List (String × Json)) : String :=
  "  factory " ++ className ++ ".fromJson(Map<String, dynamic> json) \x7b\n" ++
  "    return " ++ className ++ "(\n" ++
  concatMapEntries fromJsonLine entries ++
  "    );\n" ++ "  \x7d\n\n"

/-- The `toJson` method block (source lines 137-150). -/
def toJsonText (entries : List (String × Json)) : String :=
  "  Map<String, dynamic> toJson() \x7b\n" ++ "    return \x7b\n" ++
  concatMapEntries toJsonLine entries ++
  "    \x7d;\n" ++ "  \x7d\n"

/-- The body of `generateClassContent` (source lines 101-153) once the entry
list of its object argument is in hand: field declarations, a blank line,
constructor, `fromJson`, `toJson`. -/
def classContentCore (className : String) (entries : List (String × Json)) : String :=
  concatMapEntries fieldDeclLine entries ++ "\n" ++
  ctorText className entries ++
  fromJsonText className entries ++
  toJsonText entries

/-- JavaScript array index/element entry pairs, `i` being the index of the
first listed element: `Object.entries` of an array yields
`[["0", v0], ["1", v1], ...]`. -/
def arrEntries : Nat → List Json → List (String × Json)
  | _, [] => []
  | i, v :: rest => (toString i, v) :: arrEntries (i + 1) rest

/-- JavaScript `Object.entries`: throws a TypeError on `null` (modelled as
`none`), yields index/element pairs on an array, index/character pairs on a
string, `[]` on a number or boolean, and the own enumerable entries on a
plain object. -/
def jsEntries : Json → Option (List (String × Json))
  | .null => none
  | .boolean _ => some []
  | .number _ => some []
  | .str s => some (arrEntries 0 (s.data.map (fun c => Json.str (String.singleton c))))
  | .arr xs => some (arrEntries 0 xs)
  | .obj fs => some fs

/-- Mirrors `generateClassContent` (source lines 101-153).  `Object.entries`
of a `null` argument throws, modelled by `none`; in every other case the body
is total. -/
def generateClassContent (obj : Json) (className : String) : Option String :=
  (jsEntries obj).map (fun entries => classContentCore className entries)

mutual

/-- Mirrors `generateNestedClasses` (source lines 79-99).  The `className`
parameter is accepted, as in the source, but never read.  `Object.entries`
throws on `null` (`none`); on numbers, booleans and strings the loop body
never takes a branch, so the result is `""`; arrays are iterated with their
index strings as keys. -/
def generateNestedClasses : Json → String → Option String
  | .null, _ => none
  | .boolean _, _ => some ""
  | .number _, _ => some ""
  | .str _, _ => some ""
  | .arr xs, className => genNestedArr 0 xs className
  | .obj fs, className => genNestedObj fs className
termination_by structural v _ => v

/-- The `for (const [key, value] of Object.entries(obj))` loop of
`generateNestedClasses`, iterating over a plain object's entries. -/
def genNestedObj : List (String × Json) → String → Option String
  | [], _ => some ""
  | (key, value) :: rest, className =>
    match genNestedEntry key value with
    | none => none
    | some piece =>
      match genNestedObj rest className with
      | none => none
      | some tail => some (piece ++ tail)
termination_by structural l _ => l

/-- The same loop when the argument is an array: entry keys are the decimal
index strings. -/
def genNestedArr : Nat → List Json → String → Option String
  | _, [], _ => some ""
  | i, value :: rest, className =>
    match genNestedEntry (toString i) value with
    | none => none
    | some piece =>
      match genNestedArr (i + 1) rest className with
      | none => none
      | some tail => some (piece ++ tail)
termination_by structural _ l _ => l

/-- The body of one loop iteration of `generateNestedClasses`
(source lines 82-95) for entry `(key, value)`:
if `value` is a plain object, recurse into it and emit its class;
else if `value` is a non-empty array whose first element has JavaScript type
`'object'` (an object, an array, or null), recurse into `value[0]` and emit a
class for it (throwing when `value[0]` is null); otherwise contribute
nothing. -/
def genNestedEntry : String → Json → Option String
  | key, .obj fs =>
    (match genNestedObj fs (capitalizeFirst key) with
     | none => none
     | some inner =>
       match generateClassContent (Json.obj fs) (capitalizeFirst key) with
       | none => none
       | some content =>
         some (inner ++ "\nclass " ++ capitalizeFirst key ++ " \x7b\n" ++
               content ++ "\x7d\n"))
  | key, .arr (firstItem :: _) =>
    if typeofObject firstItem then
      match generateNestedClasses firstItem (capitalizeFirst (stripTrailingS key)) with
      | none => none
      | some inner =>
        match generateClassContent firstItem (capitalizeFirst (stripTrailingS key)) with
        | none => none
        | some content =>
          some (inner ++ "\nclass " ++ capitalizeFirst (stripTrailingS key) ++
                " \x7b\n" ++ content ++ "\x7d\n")
    else some ""
  | _, _ => some ""
termination_by structural _ v => v

end

/-- Mirrors `generateDartClass` (source lines 52-163): collect the nested
classes, then append the root class built from the same value. -/
def generateDartClass (json : Json) (className : String) : Option String :=
  match generateNestedClasses json className with
  | none => none
  | some nestedClasses =>
    match generateClassContent json className with
    | none => none
    | some content =>
      some (nestedClasses ++ "\nclass " ++ className ++ " \x7b\n" ++
            content ++ "\x7d\n")

/-- Mirrors `convertJsonToDart`'s UI state (source lines 13-15): the input
text, the chosen root class name and the currently displayed output. -/
structure ConverterState where
  jsonInput : String
  className : String
  dartOutput : String
deriving Repr

/-- The user-visible outcome of one click of Convert: the early-return toast
for blank input, the catch-all error toast of the `try`/`catch` (shown both
for a `JSON.parse` failure and for an exception thrown by the generator), or
success. -/
inductive ConvertOutcome where
  | emptyInputError : ConvertOutcome
  | invalidInputError : ConvertOutcome
  | converted : ConvertOutcome
deriving Repr, DecidableEq

/-- Mirrors `convertJsonToDart` (source lines 19-50).  `JSON.parse` is
abstracted as the `parse` parameter (`none` models a thrown SyntaxError).
Only a successful conversion stores a new output; every failure path leaves
the state untouched. -/
def convertJsonToDart (parse : String → Option Json)
    (s : ConverterState) : ConvertOutcome × ConverterState :=
  if s.jsonInput.trim = "" then (.emptyInputError, s)
  else
    match parse s.jsonInput with
    | none => (.invalidInputError, s)
    | some parsedJson =>
      match generateDartClass parsedJson s.className with
      | none => (.invalidInputError, s)
      | some dartClass => (.converted, { s with dartOutput := dartClass })

/-- The two kinds of exception the `try` block of the source can raise: a
`JSON.parse` SyntaxError on malformed input, or the TypeError thrown by
`Object.entries(null)` inside the generator. -/
inductive GenError where
  | invalidInput : GenError
  | generationTypeError : GenError
deriving Repr, DecidableEq

/-- The core pipeline `(jsonText, rootClassName) -> Result` of the spec:
parse, then generate. -/
def generate (parse : String → Option Json)
    (jsonText rootClassName : String) : Except GenError String :=
  match parse jsonText with
  | none => .error .invalidInput
  | some parsedJson =>
    match generateDartClass parsedJson rootClassName with
    | none => .error .generationTypeError
    | some out => .ok out

/-- A class specification in the sense of the spec's data model: the class
name together with the entry list of the object it was generated from.  The
collector is re-expressed below as a producer of these, and proved equal to
the text producer `generateNestedClasses` after rendering. -/
abbrev ClassSpec := String × List (String × Json)

/-- Render one `ClassSpec` exactly as `generateNestedClasses` and
`generateDartClass` print a class (source lines 86-88, 92-94, 158-160). -/
def renderSpec (spec : ClassSpec) : String :=
  "\nclass " ++ spec.1 ++ " \x7b\n" ++ classContentCore spec.1 spec.2 ++ "\x7d\n"

/-- Render a list of class specifications in order. -/
def renderSpecs : List ClassSpec → String
  | [] => ""
  | spec :: rest => renderSpec spec ++ renderSpecs rest

mutual

/-- `generateNestedClasses` re-expressed at the level of the spec's data
model: the ordered sequence of class specifications it emits, with the same
branching and the same failure on a null array head. -/
def collectNested : Json → Option (List ClassSpec)
  | .null => none
  | .boolean _ => some []
  | .number _ => some []
  | .str _ => some []
  | .arr xs => collectArr 0 xs
  | .obj fs => collectObj fs
termination_by structural v => v

/-- Spec-level counterpart of `genNestedObj`. -/
def collectObj : List (String × Json) → Option (List ClassSpec)
  | [] => some []
  | (key, value) :: rest =>
    match collectEntry key value with
    | none => none
    | some piece =>
      match collectObj rest with
      | none => none
      | some tail => some (piece ++ tail)
termination_by structural l => l

/-- Spec-level counterpart of `genNestedArr`. -/
def collectArr : Nat → List Json → Option (List ClassSpec)
  | _, [] => some []
  | i, value :: rest =>
    match collectEntry (toString i) value with
    | none => none
    | some piece =>
      match collectArr (i + 1) rest with
      | none => none
      | some tail => some (piece ++ tail)
termination_by structural _ l => l

/-- Spec-level counterpart of `genNestedEntry`: the specifications emitted
for one entry, descendants first, then the entry's own class. -/
def collectEntry : String → Json → Option (List ClassSpec)
  | key, .obj fs =>
    (match collectObj fs with
     | none => none
     | some inner => some (inner ++ [(capitalizeFirst key, fs)]))
  | key, .arr (firstItem :: _) =>
    if typeofObject firstItem then
      match collectNested firstItem with
      | none => none
      | some inner =>
        match jsEntries firstItem with
        | none => none
        | some entries =>
          some (inner ++ [(capitalizeFirst (stripTrailingS key), entries)])
    else some []
  | _, _ => some []
termination_by structural _ v => v

end

/-- Whether `pat` is a prefix of `cs`, character by character. -/
def isPrefixChars : List Char → List Char → Bool
  | [], _ => true
  | _ :: _, [] => false
  | p :: ps, c :: cs => p == c && isPrefixChars ps cs

/-- Number of (possibly overlapping) occurrences of the pattern in the
character list. -/
def countOccs (pat : List Char) : List Char → Nat
  | [] => 0
  | c :: cs => (if isPrefixChars pat (c :: cs) then 1 else 0) + countOccs pat cs

/-- Number of occurrences of the non-empty substring `pat` in `s`. -/
def countSubstr (s pat : String) : Nat := countOccs pat.data s.data

/-- The named class types referenced by the declared type of one field:
`generateFieldType` yields the name `capitalizeFirst key` for a plain-object
value and the element type `capitalizeFirst (stripTrailingS key)` for a
non-empty array whose first element is a non-null object or an array; every
other value yields a type with no class name in it. -/
def entryRefs (key : String) : Json → List String
  | .obj _ => [capitalizeFirst key]
  | .arr (firstItem :: _) =>
    if typeofObject firstItem && !isNull firstItem then
      [capitalizeFirst (stripTrailingS key)]
    else []
  | _ => []

/-- All named class types referenced by the fields of an entry list, in field
order. -/
def classRefs : List (String × Json) → List String
  | [] => []
  | (key, value) :: rest => entryRefs key value ++ classRefs rest

/-- The spec's emission-order invariant over a sequence of class
specifications: walking the sequence left to right with `emitted` the names
already emitted, every class name referenced by a specification's fields must
already have been emitted when that specification is reached. -/
def specsOrderedFrom (emitted : List String) : List ClassSpec → Prop
  | [] => True
  | spec :: rest =>
    (∀ n ∈ classRefs spec.2, n ∈ emitted) ∧
    specsOrderedFrom (spec.1 :: emitted) rest

/-- Every class name referenced by a specification in the list is defined by
an earlier specification of the list. -/
def specsOrdered (specs : List ClassSpec) : Prop := specsOrderedFrom [] specs

/-- The Dart scalar type names the generator can infer. -/
def scalarTypeNames : List String := ["String", "int", "double", "bool"]

/-- The keys assigned, in order, by the generated `fromJson` factory: the
loop at source line 123 iterates `Object.entries(obj)` and emits one
assignment per entry. -/
def fromJsonKeys (entries : List (String × Json)) : List String :=
  entries.map Prod.fst

/-- The keys written, in order, by the generated `toJson` method: the loop at
source line 140 iterates `Object.entries(obj)` and emits one map entry per
entry. -/
def toJsonKeys (entries : List (String × Json)) : List String :=
  entries.map Prod.fst

theorem renderSpecs_append (xs ys : List ClassSpec) :
    renderSpecs (xs ++ ys) = renderSpecs xs ++ renderSpecs ys := by
  induction xs with
  | nil => simp [renderSpecs, String.empty_append]
  | cons x xs ih => simp [renderSpecs, ih, String.append_assoc]

mutual

theorem generateNestedClasses_eq_render (v : Json) (className : String) :
    generateNestedClasses v className = (collectNested v).map renderSpecs := by
  cases v with
  | null => rfl
  | boolean b => rfl
  | number n => rfl
  | str s => rfl
  | arr xs =>
    simpa [generateNestedClasses, collectNested] using
      genNestedArr_eq_render 0 xs className
  | obj fs =>
    simpa [generateNestedClasses, collectNested] using
      genNestedObj_eq_render fs className
termination_by structural v

theorem genNestedObj_eq_render (l : List (String × Json)) (className : String) :
    genNestedObj l className = (collectObj l).map renderSpecs := by
  cases l with
  | nil => rfl
  | cons e rest =>
    obtain ⟨key, value⟩ := e
    rw [genNestedObj, collectObj, genNestedEntry_eq_render key value,
        genNestedObj_eq_render rest className]
    cases collectEntry key value with
    | none => rfl
    | some piece =>
      cases collectObj rest with
      | none => rfl
      | some tail => simp [renderSpecs_append]
termination_by structural l

theorem genNestedArr_eq_render (i : Nat) (l : List Json) (className : String) :
    genNestedArr i l className = (collectArr i l).map renderSpecs := by
  cases l with
  | nil => rfl
  | cons value rest =>
    rw [genNestedArr, collectArr, genNestedEntry_eq_render (toString i) value,
        genNestedArr_eq_render (i + 1) rest className]
    cases collectEntry (toString i) value with
    | none => rfl
    | some piece =>
      cases collectArr (i + 1) rest with
      | none => rfl
      | some tail => simp [renderSpecs_append]
termination_by structural l

theorem genNestedEntry_eq_render (key : String) (v : Json) :
    genNestedEntry key v = (collectEntry key v).map renderSpecs := by
  cases v with
  | null => rfl
  | boolean b => rfl
  | number n => rfl
  | str s => rfl
  | obj fs =>
    rw [genNestedEntry, collectEntry, genNestedObj_eq_render fs (capitalizeFirst key)]
    cases collectObj fs with
    | none => rfl
    | some inner =>
      simp [renderSpecs_append, renderSpecs, renderSpec, generateClassContent,
        jsEntries, String.append_assoc, String.append_empty]
  | arr xs =>
    cases xs with
    | nil => rfl
    | cons firstItem restItems =>
      rw [genNestedEntry, collectEntry]
      by_cases h : typeofObject firstItem = true
      · rw [if_pos h, if_pos h,
          generateNestedClasses_eq_render firstItem (capitalizeFirst (stripTrailingS key))]
        cases collectNested firstItem with
        | none => rfl
        | some inner =>
          cases hj : jsEntries firstItem with
          | none => simp [generateClassContent, hj]
          | some entries =>
            simp [generateClassContent, hj, renderSpecs_append, renderSpecs,
              renderSpec, String.append_assoc, String.append_empty]
      · rw [if_neg h, if_neg h]; rfl
termination_by structural v

end

/-- A parse function that fails on every input, modelling `JSON.parse` on a
malformed text such as the spec's example. -/
def noParse : String → Option Json := fun _ => none

/-- Claim C1 (code bug, evaluated at the failing input): the claim says that
once parsing succeeds generation always terminates normally with an output
string, explicitly including arrays whose first element is null.  But on the
parsed tree of the valid JSON text with an array whose first element is null,
and likewise on the parsed tree of the valid JSON text null, the collector
reaches `Object.entries(null)` (the `typeof value[0] === 'object'` guard at
source line 89 is true for null) and throws a TypeError, modelled as `none`. -/
theorem c1_generation_throws_on_null_array_head :
    generateDartClass (Json.obj [("a", Json.arr [Json.null])]) "MyModel" = none ∧
    generateDartClass Json.null "MyModel" = none :=
  ⟨rfl, rfl⟩

set_option maxRecDepth 8000 in
/-- Claim C2 (counterexample): on the object whose field a holds an array
whose first element is itself an array of objects, the claim predicts that
the collector emits no class for the field and does not descend; in fact it
descends (JavaScript `typeof` of an array is `'object'`) and emits two
classes, named 0 and A. -/
theorem c2_collector_descends_into_array_of_arrays :
    generateNestedClasses
      (Json.obj [("a", Json.arr [Json.arr [Json.obj [("b", Json.number true)]]])])
      "Root" ≠ some "" ∧
    countSubstr
      ((generateNestedClasses
        (Json.obj [("a", Json.arr [Json.arr [Json.obj [("b", Json.number true)]]])])
        "Root").getD "") "\nclass " = 2 :=
  ⟨by decide, by decide⟩

/-- Claim C2 (amended): the collector recurses into field values that are
non-null, non-array objects and into the first element of any non-empty array
whose first element has JavaScript type object — that is, an object, an
array, or null (throwing on null).  Only for a field whose value is an array
whose first element is a scalar (string, number or boolean) does the
collector emit no class and not descend. -/
theorem c2_amended_scalar_array_head_not_descended :
    ∀ (key s : String) (isInt b : Bool) (rest : List Json),
      genNestedEntry key (Json.arr (Json.str s :: rest)) = some "" ∧
      genNestedEntry key (Json.arr (Json.number isInt :: rest)) = some "" ∧
      genNestedEntry key (Json.arr (Json.boolean b :: rest)) = some "" := by
  intro key s isInt b rest
  refine ⟨?_, ?_, ?_⟩ <;> simp [genNestedEntry, typeofObject]

/-- Claim C3 (counterexample): for key a and the non-empty array value whose
first element is the array of two integers, the claim predicts the type
List<List<int>> by recursing on the first element; the code instead takes the
`typeof firstItem === 'object'` branch (true for arrays) and produces the
named-class list type List<A>. -/
theorem c3_array_of_arrays_typed_as_named_class_list :
    generateFieldType (Json.arr [Json.arr [Json.number true, Json.number true]]) "a"
      = "List<A>" ∧
    generateFieldType (Json.arr [Json.arr [Json.number true, Json.number true]]) "a"
      ≠ "List<List<int>>" :=
  ⟨rfl, by decide⟩

/-- Claim C3 (amended): for a non-empty array value the field-type function
returns ListOf applied to the type of the first element, recursing on the
first element only, when that first element is a scalar or null; when the
first element is an object or an array (both have JavaScript type object and
are non-null) it returns the named-class list type built from the key with a
trailing s stripped and the first letter capitalized. -/
theorem c3_amended_array_first_element_typing :
    ∀ (key s : String) (rest ys : List Json) (fs : List (String × Json))
      (isInt b : Bool),
      generateFieldType (Json.arr (Json.obj fs :: rest)) key =
        "List<" ++ capitalizeFirst (stripTrailingS key) ++ ">" ∧
      generateFieldType (Json.arr (Json.arr ys :: rest)) key =
        "List<" ++ capitalizeFirst (stripTrailingS key) ++ ">" ∧
      generateFieldType (Json.arr (Json.str s :: rest)) key =
        "List<" ++ generateFieldType (Json.str s) key ++ ">" ∧
      generateFieldType (Json.arr (Json.number isInt :: rest)) key =
        "List<" ++ generateFieldType (Json.number isInt) key ++ ">" ∧
      generateFieldType (Json.arr (Json.boolean b :: rest)) key =
        "List<" ++ generateFieldType (Json.boolean b) key ++ ">" ∧
      generateFieldType (Json.arr (Json.null :: rest)) key =
        "List<" ++ generateFieldType Json.null key ++ ">" := by
  intro key s rest ys fs isInt b
  refine ⟨?_, ?_, ?_, ?_, ?_, ?_⟩ <;>
    simp [generateFieldType, typeofObject, isNull]

set_option maxRecDepth 8000 in
/-- Claim C5 (confirmed): the literal type-inference table of the spec, plus
the nested-class part of the items example: the collector emits exactly one
class specification Item with the single integer field b, the emitted field
declaration for b is the int one, and the full output text contains the class
header for Item exactly once. -/
theorem c5_type_inference_table :
    generateFieldType Json.null "a" = "dynamic" ∧
    generateFieldType (Json.number true) "a" = "int" ∧
    generateFieldType (Json.number false) "a" = "double" ∧
    generateFieldType (Json.str "x") "a" = "String" ∧
    generateFieldType (Json.boolean true) "a" = "bool" ∧
    generateFieldType (Json.arr []) "a" = "List<dynamic>" ∧
    generateFieldType (Json.arr [Json.number true, Json.number true]) "a" = "List<int>" ∧
    generateFieldType (Json.arr [Json.obj [("b", Json.number true)]]) "items" = "List<Item>" ∧
    collectNested (Json.obj [("items", Json.arr [Json.obj [("b", Json.number true)]])]) =
      some [("Item", [("b", Json.number true)])] ∧
    fieldDeclLine "b" (Json.number true) = "  final int? b;\n" ∧
    countSubstr
      ((generateDartClass
        (Json.obj [("items", Json.arr [Json.obj [("b", Json.number true)]])])
        "MyModel").getD "") "\nclass Item \x7b\n" = 1 := by
  refine ⟨rfl, rfl, rfl, rfl, rfl, rfl, rfl, rfl, rfl, rfl, ?_⟩
  decide

/-- Claim C7 (confirmed): when parsing the input text fails, the core
pipeline returns the invalid-input error (and hence no output text), and one
click of Convert leaves the whole UI state, in particular the previously
stored output, unchanged. -/
theorem c7_invalid_input_error_and_state_unchanged :
    ∀ (parse : String → Option Json) (text name : String) (s : ConverterState),
      parse text = none → s.jsonInput = text →
      generate parse text name = Except.error GenError.invalidInput ∧
      (convertJsonToDart parse s).2 = s := by
  intro parse text name s hp hs
  constructor
  · simp [generate, hp]
  · unfold convertJsonToDart
    rw [hs, hp]
    split <;> rfl

/-- Witness for claim C7 at the spec's own example: the unparseable text
beginning with an opening brace, root class name X, and a state whose stored
output is the string previous. -/
theorem c7_invalid_input_error_and_state_unchanged_witness :
    generate noParse "\x7binvalid" "X" = Except.error GenError.invalidInput ∧
    (convertJsonToDart noParse ⟨"\x7binvalid", "X", "previous"⟩).2 =
      ⟨"\x7binvalid", "X", "previous"⟩ :=
  c7_invalid_input_error_and_state_unchanged noParse "\x7binvalid" "X"
    ⟨"\x7binvalid", "X", "previous"⟩ rfl rfl

/-- Every declared field type of the entry list is one of the four scalar
type names. -/
def allFieldsScalar (entries : List (String × Json)) : Bool :=
  entries.all (fun kv => scalarTypeNames.contains (generateFieldType kv.2 kv.1))

/-- Claim C8 (confirmed): for a generated class all of whose fields have
scalar declared types, the sequence of keys assigned in the emitted fromJson
factory equals the sequence of keys written in the emitted toJson method:
both loops iterate the same `Object.entries` list in the same order. -/
theorem c8_fromJson_toJson_key_sequences_agree :
    ∀ (entries : List (String × Json)),
      allFieldsScalar entries = true →
      fromJsonKeys entries = toJsonKeys entries := by
  intro entries _
  rfl

/-- Witness for claim C8 on a one-field class with an integer field a. -/
theorem c8_fromJson_toJson_key_sequences_agree_witness :
    allFieldsScalar [("a", Json.number true)] = true ∧
    fromJsonKeys [("a", Json.number true)] = toJsonKeys [("a", Json.number true)] :=
  ⟨by decide, c8_fromJson_toJson_key_sequences_agree [("a", Json.number true)] (by decide)⟩

/-- Claim C9 (confirmed): generation on the object with the single empty-
string key does not fail; the capitalizer returns the empty string on the
empty string, the inferred type of the field is int, and the emitted field
declaration names the empty field. -/
theorem c9_empty_key_generation_succeeds :
    capitalizeFirst "" = "" ∧
    generateFieldType (Json.number true) "" = "int" ∧
    fieldDeclLine "" (Json.number true) = "  final int? ;\n" ∧
    (generateDartClass (Json.obj [("", Json.number true)]) "MyModel").isSome = true :=
  ⟨rfl, rfl, rfl, rfl⟩

/-- One unfolding step of the collector loop over a plain object's entries. -/
theorem genNestedObj_cons (key : String) (value : Json)
    (rest : List (String × Json)) (c : String) :
    genNestedObj ((key, value) :: rest) c =
      (genNestedEntry key value).bind
        (fun piece => (genNestedObj rest c).map (fun tail => piece ++ tail)) := by
  cases h1 : genNestedEntry key value with
  | none => simp [genNestedObj, h1]
  | some piece =>
    cases h2 : genNestedObj rest c with
    | none => simp [genNestedObj, h1, h2]
    | some tail => simp [genNestedObj, h1, h2]

/-- The collector's text over a split entry list is the concatenation of the
texts over the two halves. -/
theorem genNestedObj_append (l1 l2 : List (String × Json)) (c : String) :
    genNestedObj (l1 ++ l2) c =
      (genNestedObj l1 c).bind
        (fun a => (genNestedObj l2 c).map (fun b => a ++ b)) := by
  induction l1 with
  | nil =>
    cases h : genNestedObj l2 c <;>
      simp [genNestedObj, h, String.empty_append]
  | cons e rest ih =>
    obtain ⟨key, value⟩ := e
    rw [List.cons_append, genNestedObj_cons, genNestedObj_cons, ih]
    cases genNestedEntry key value with
    | none => rfl
    | some piece =>
      cases genNestedObj rest c with
      | none => rfl
      | some a =>
        cases genNestedObj l2 c with
        | none => rfl
        | some b => simp [String.append_assoc]

/-- The text the collector contributes for a plain-object entry: first the
entry value's own descendant classes, then the entry's class. -/
theorem genNestedEntry_obj_eq (key : String) (fs : List (String × Json)) :
    genNestedEntry key (Json.obj fs) =
      (genNestedObj fs (capitalizeFirst key)).map
        (fun inner => inner ++ renderSpec (capitalizeFirst key, fs)) := by
  cases h : genNestedObj fs (capitalizeFirst key) with
  | none => simp [genNestedEntry, h]
  | some inner =>
    simp [genNestedEntry, h, generateClassContent, jsEntries, renderSpec,
      String.append_assoc]

/-- The full output on an object root: the collected nested-class text
followed by the rendered root class. -/
theorem generateDartClass_obj (fs : List (String × Json)) (c : String) :
    generateDartClass (Json.obj fs) c =
      (genNestedObj fs c).map (fun nested => nested ++ renderSpec (c, fs)) := by
  cases h : genNestedObj fs c with
  | none => simp [generateDartClass, generateNestedClasses, h]
  | some nested =>
    simp [generateDartClass, generateNestedClasses, h, generateClassContent,
      jsEntries, renderSpec, String.append_assoc]

/-- Claim C6 (confirmed): whenever the input object has a field holding a
nested object and generation succeeds, the output text splits as: text of the
earlier fields' classes, then the nested value's own descendant classes
(`genNestedObj fs`), then the nested field's class, then the later fields'
classes, and the root class strictly last.  In particular the nested class's
definition text appears strictly before the root class's, each nested value's
descendants are emitted before the class for that value, and along any
nesting chain the deepest class comes first. -/
theorem c6_nested_class_before_root :
    ∀ (pre post : List (String × Json)) (key : String)
      (fs : List (String × Json)) (c out : String),
      generateDartClass (Json.obj (pre ++ (key, Json.obj fs) :: post)) c = some out →
      ∃ before inner after,
        genNestedObj fs (capitalizeFirst key) = some inner ∧
        out = before ++ inner ++ renderSpec (capitalizeFirst key, fs) ++ after ++
              renderSpec (c, pre ++ (key, Json.obj fs) :: post) := by
  intro pre post key fs c out h
  rw [generateDartClass_obj, genNestedObj_append, genNestedObj_cons,
    genNestedEntry_obj_eq] at h
  simp only [Option.map_eq_some', Option.bind_eq_some] at h
  obtain ⟨nested, ⟨before, hbefore, inner, ⟨i0, ⟨ia, hia, hi0eq⟩,
    ⟨after, hafter, hinner⟩⟩, hnested⟩, hout⟩ := h
  subst hi0eq hinner hnested hout
  exact ⟨before, ia, after, hia, by simp [String.append_assoc]⟩

/-- Witness for claim C6 on the object whose field a holds the object with
the single integer field b, root class name Root. -/
theorem c6_nested_class_before_root_witness :
    ∃ before inner after,
      genNestedObj [("b", Json.number true)] (capitalizeFirst "a") = some inner ∧
      (generateDartClass (Json.obj [("a", Json.obj [("b", Json.number true)])])
        "Root").getD "" =
        before ++ inner ++ renderSpec (capitalizeFirst "a", [("b", Json.number true)]) ++
        after ++ renderSpec ("Root", [("a", Json.obj [("b", Json.number true)])]) :=
  c6_nested_class_before_root [] [] "a" [("b", Json.number true)] "Root"
    ((generateDartClass (Json.obj [("a", Json.obj [("b", Json.number true)])])
      "Root").getD "") (by rfl)

/-- Claim C10 (confirmed): the collector never reads its class-name argument,
so for any parsed value the nested-classes portion of the output is the same
string for any two root class names; when generation succeeds, both outputs
are that shared nested text followed by a root class block, and only that
final block mentions the chosen root name (class header, constructor and
factory names live in the block's content). -/
theorem c10_root_name_influences_only_root_block :
    ∀ (v : Json) (c1 c2 : String),
      generateNestedClasses v c1 = generateNestedClasses v c2 ∧
      ((generateDartClass v c1).isSome = true →
        ∃ nested b1 b2,
          generateNestedClasses v c1 = some nested ∧
          generateClassContent v c1 = some b1 ∧
          generateClassContent v c2 = some b2 ∧
          generateDartClass v c1 =
            some (nested ++ "\nclass " ++ c1 ++ " \x7b\n" ++ b1 ++ "\x7d\n") ∧
          generateDartClass v c2 =
            some (nested ++ "\nclass " ++ c2 ++ " \x7b\n" ++ b2 ++ "\x7d\n")) := by
  intro v c1 c2
  have hnc : generateNestedClasses v c1 = generateNestedClasses v c2 := by
    rw [generateNestedClasses_eq_render, generateNestedClasses_eq_render]
  refine ⟨hnc, ?_⟩
  intro h
  unfold generateDartClass at h
  cases hn : generateNestedClasses v c1 with
  | none => rw [hn] at h; simp at h
  | some nested =>
    rw [hn] at h
    cases hc : generateClassContent v c1 with
    | none => rw [hc] at h; simp at h
    | some b1 =>
      have hj : ∃ entries, jsEntries v = some entries := by
        cases hj0 : jsEntries v with
        | none => rw [generateClassContent, hj0] at hc; simp at hc
        | some entries => exact ⟨entries, rfl⟩
      obtain ⟨entries, hent⟩ := hj
      have hc2 : generateClassContent v c2 = some (classContentCore c2 entries) := by
        rw [generateClassContent, hent]; rfl
      refine ⟨nested, b1, classContentCore c2 entries, rfl, rfl, hc2, ?_, ?_⟩
      · unfold generateDartClass
        rw [hn, hc]
      · unfold generateDartClass
        rw [← hnc, hn, hc2]

/-- Witness for claim C10 on the object with the single integer field a and
the two root names X and Y. -/
theorem c10_root_name_influences_only_root_block_witness :
    generateNestedClasses (Json.obj [("a", Json.number true)]) "X" =
      generateNestedClasses (Json.obj [("a", Json.number true)]) "Y" ∧
    (∃ nested b1 b2,
      generateNestedClasses (Json.obj [("a", Json.number true)]) "X" = some nested ∧
      generateClassContent (Json.obj [("a", Json.number true)]) "X" = some b1 ∧
      generateClassContent (Json.obj [("a", Json.number true)]) "Y" = some b2 ∧
      generateDartClass (Json.obj [("a", Json.number true)]) "X" =
        some (nested ++ "\nclass " ++ "X" ++ " \x7b\n" ++ b1 ++ "\x7d\n") ∧
      generateDartClass (Json.obj [("a", Json.number true)]) "Y" =
        some (nested ++ "\nclass " ++ "Y" ++ " \x7b\n" ++ b2 ++ "\x7d\n")) :=
  ⟨(c10_root_name_influences_only_root_block (Json.obj [("a", Json.number true)]) "X" "Y").1,
   (c10_root_name_influences_only_root_block (Json.obj [("a", Json.number true)]) "X" "Y").2
     (by rfl)⟩

/-- One unfolding step of the spec-level collector over an object's
entries. -/
theorem collectObj_cons (key : String) (value : Json)
    (rest : List (String × Json)) :
    collectObj ((key, value) :: rest) =
      (collectEntry key value).bind
        (fun piece => (collectObj rest).map (fun tail => piece ++ tail)) := by
  cases h1 : collectEntry key value with
  | none => simp [collectObj, h1]
  | some piece =>
    cases h2 : collectObj rest with
    | none => simp [collectObj, h1, h2]
    | some tail => simp [collectObj, h1, h2]

/-- One unfolding step of the spec-level collector over an array's
elements. -/
theorem collectArr_cons (i : Nat) (value : Json) (rest : List Json) :
    collectArr i (value :: rest) =
      (collectEntry (toString i) value).bind
        (fun piece => (collectArr (i + 1) rest).map (fun tail => piece ++ tail)) := by
  cases h1 : collectEntry (toString i) value with
  | none => simp [collectArr, h1]
  | some piece =>
    cases h2 : collectArr (i + 1) rest with
    | none => simp [collectArr, h1, h2]
    | some tail => simp [collectArr, h1, h2]

/-- The specifications collected for a plain-object entry: the entry value's
descendants followed by the entry's own class. -/
theorem collectEntry_obj_eq (key : String) (fs : List (String × Json)) :
    collectEntry key (Json.obj fs) =
      (collectObj fs).map (fun inner => inner ++ [(capitalizeFirst key, fs)]) := by
  cases h : collectObj fs with
  | none => simp [collectEntry, h]
  | some inner => simp [collectEntry, h]

/-- Whenever the collector succeeds on one entry, every class name the
entry's field type references is the name of one of the collected
specifications. -/
theorem entryRefs_covered (key : String) (value : Json) (piece : List ClassSpec) :
    collectEntry key value = some piece →
    ∀ n ∈ entryRefs key value, n ∈ piece.map Prod.fst := by
  cases value with
  | null => intro _ n hn; simp [entryRefs] at hn
  | boolean b => intro _ n hn; simp [entryRefs] at hn
  | number b => intro _ n hn; simp [entryRefs] at hn
  | str s => intro _ n hn; simp [entryRefs] at hn
  | obj fs =>
    intro h n hn
    rw [collectEntry_obj_eq] at h
    simp only [Option.map_eq_some'] at h
    obtain ⟨inner, hinner, rfl⟩ := h
    simp only [entryRefs, List.mem_singleton] at hn
    subst hn
    simp
  | arr xs =>
    cases xs with
    | nil => intro _ n hn; simp [entryRefs] at hn
    | cons f r =>
      intro h n hn
      simp only [entryRefs] at hn
      by_cases hb : (typeofObject f && !isNull f) = true
      · rw [if_pos hb] at hn
        simp only [List.mem_singleton] at hn
        subst hn
        have htf : typeofObject f = true := by
          rw [Bool.and_eq_true] at hb
          exact hb.1
        rw [collectEntry, if_pos htf] at h
        cases hc : collectNested f with
        | none => rw [hc] at h; simp at h
        | some inner =>
          rw [hc] at h
          cases hj : jsEntries f with
          | none => rw [hj] at h; simp at h
          | some entries =>
            rw [hj] at h
            simp only [Option.some_inj] at h
            subst h
            simp
      · rw [if_neg hb] at hn
        simp at hn

/-- Coverage over an object's entry list: every referenced class name is
defined by one of the collected specifications. -/
theorem classRefs_covered_obj :
    ∀ (fs : List (String × Json)) (specs : List ClassSpec),
      collectObj fs = some specs →
      ∀ n ∈ classRefs fs, n ∈ specs.map Prod.fst := by
  intro fs
  induction fs with
  | nil => intro specs _ n hn; simp [classRefs] at hn
  | cons e rest ih =>
    obtain ⟨key, value⟩ := e
    intro specs h n hn
    rw [collectObj_cons] at h
    simp only [Option.bind_eq_some, Option.map_eq_some'] at h
    obtain ⟨piece, hpiece, tail, htail, rfl⟩ := h
    simp only [classRefs, List.mem_append] at hn
    simp only [List.map_append, List.mem_append]
    rcases hn with h1 | h2
    · exact Or.inl (entryRefs_covered key value piece hpiece n h1)
    · exact Or.inr (ih tail htail n h2)

/-- Coverage over an array's entries. -/
theorem classRefs_covered_arr :
    ∀ (xs : List Json) (i : Nat) (specs : List ClassSpec),
      collectArr i xs = some specs →
      ∀ n ∈ classRefs (arrEntries i xs), n ∈ specs.map Prod.fst := by
  intro xs
  induction xs with
  | nil => intro i specs _ n hn; simp [arrEntries, classRefs] at hn
  | cons v rest ih =>
    intro i specs h n hn
    rw [collectArr_cons] at h
    simp only [Option.bind_eq_some, Option.map_eq_some'] at h
    obtain ⟨piece, hpiece, tail, htail, rfl⟩ := h
    simp only [arrEntries, classRefs, List.mem_append] at hn
    simp only [List.map_append, List.mem_append]
    rcases hn with h1 | h2
    · exact Or.inl (entryRefs_covered (toString i) v piece hpiece n h1)
    · exact Or.inr (ih (i + 1) tail htail n h2)

/-- The index/character entries of a string reference no class names. -/
theorem classRefs_char_entries (cs : List Char) :
    ∀ i, classRefs (arrEntries i (cs.map (fun c => Json.str (String.singleton c)))) = [] := by
  induction cs with
  | nil => intro i; simp [arrEntries, classRefs]
  | cons c cs ih => intro i; simp [arrEntries, classRefs, entryRefs, ih]

/-- Coverage at the root: every class name referenced by the root's entries
is defined by one of the collected specifications. -/
theorem classRefs_covered_json (v : Json) (specs : List ClassSpec)
    (entries : List (String × Json)) :
    collectNested v = some specs → jsEntries v = some entries →
    ∀ n ∈ classRefs entries, n ∈ specs.map Prod.fst := by
  cases v with
  | null => intro _ hj; simp [jsEntries] at hj
  | boolean b =>
    intro _ hj n hn
    have he : entries = [] := by simpa [jsEntries] using hj.symm
    subst he; simp [classRefs] at hn
  | number b =>
    intro _ hj n hn
    have he : entries = [] := by simpa [jsEntries] using hj.symm
    subst he; simp [classRefs] at hn
  | str s =>
    intro _ hj n hn
    have he : entries = arrEntries 0 (s.data.map (fun c => Json.str (String.singleton c))) := by
      simpa [jsEntries] using hj.symm
    subst he
    rw [classRefs_char_entries] at hn
    simp at hn
  | arr xs =>
    intro hc hj n hn
    have he : entries = arrEntries 0 xs := by simpa [jsEntries] using hj.symm
    subst he
    exact classRefs_covered_arr xs 0 specs (by simpa [collectNested] using hc) n hn
  | obj fs0 =>
    intro hc hj n hn
    have he : entries = fs0 := by simpa [jsEntries] using hj.symm
    subst he
    exact classRefs_covered_obj _ specs (by simpa [collectNested] using hc) n hn

/-- Splitting the ordering invariant across a concatenation: the second part
is checked with the first part's names (in reverse emission order) already
emitted. -/
theorem specsOrderedFrom_append :
    ∀ (xs ys : List ClassSpec) (em : List String),
      specsOrderedFrom em (xs ++ ys) ↔
        (specsOrderedFrom em xs ∧
         specsOrderedFrom ((xs.map Prod.fst).reverse ++ em) ys) := by
  intro xs
  induction xs with
  | nil => intro ys em; simp [specsOrderedFrom]
  | cons x xs ih =>
    intro ys em
    have hrw : ((x :: xs).map Prod.fst).reverse ++ em
        = (xs.map Prod.fst).reverse ++ (x.1 :: em) := by
      simp [List.append_assoc]
    rw [List.cons_append, specsOrderedFrom, specsOrderedFrom, ih, hrw]
    tauto

mutual

/-- The collected specifications of any value satisfy the ordering invariant
under any already-emitted names. -/
theorem collectNested_ordered (v : Json) (specs : List ClassSpec)
    (h : collectNested v = some specs) (em : List String) :
    specsOrderedFrom em specs := by
  cases v with
  | null => simp [collectNested] at h
  | boolean b =>
    have : specs = [] := by simpa [collectNested] using h.symm
    subst this; exact trivial
  | number b =>
    have : specs = [] := by simpa [collectNested] using h.symm
    subst this; exact trivial
  | str s =>
    have : specs = [] := by simpa [collectNested] using h.symm
    subst this; exact trivial
  | arr xs => exact collectArr_ordered 0 xs specs (by simpa [collectNested] using h) em
  | obj fs => exact collectObj_ordered fs specs (by simpa [collectNested] using h) em
termination_by structural v

/-- Ordering invariant for the specifications collected over an object's
entries. -/
theorem collectObj_ordered (fs : List (String × Json)) (specs : List ClassSpec)
    (h : collectObj fs = some specs) (em : List String) :
    specsOrderedFrom em specs := by
  cases fs with
  | nil =>
    have : specs = [] := by simpa [collectObj] using h.symm
    subst this; exact trivial
  | cons e rest =>
    obtain ⟨key, value⟩ := e
    rw [collectObj_cons] at h
    simp only [Option.bind_eq_some, Option.map_eq_some'] at h
    obtain ⟨piece, hpiece, tail, htail, rfl⟩ := h
    rw [specsOrderedFrom_append]
    exact ⟨collectEntry_ordered key value piece hpiece em,
      collectObj_ordered rest tail htail _⟩
termination_by structural fs

/-- Ordering invariant for the specifications collected over an array's
elements. -/
theorem collectArr_ordered (i : Nat) (xs : List Json) (specs : List ClassSpec)
    (h : collectArr i xs = some specs) (em : List String) :
    specsOrderedFrom em specs := by
  cases xs with
  | nil =>
    have : specs = [] := by simpa [collectArr] using h.symm
    subst this; exact trivial
  | cons value rest =>
    rw [collectArr_cons] at h
    simp only [Option.bind_eq_some, Option.map_eq_some'] at h
    obtain ⟨piece, hpiece, tail, htail, rfl⟩ := h
    rw [specsOrderedFrom_append]
    exact ⟨collectEntry_ordered (toString i) value piece hpiece em,
      collectArr_ordered (i + 1) rest tail htail _⟩
termination_by structural xs

/-- Ordering invariant for the specifications collected for one entry: a
nested value's descendants are all emitted before its own class, whose
references they cover. -/
theorem collectEntry_ordered (key : String) (value : Json) (specs : List ClassSpec)
    (h : collectEntry key value = some specs) (em : List String) :
    specsOrderedFrom em specs := by
  cases value with
  | null =>
    have : specs = [] := by simpa [collectEntry] using h.symm
    subst this; exact trivial
  | boolean b =>
    have : specs = [] := by simpa [collectEntry] using h.symm
    subst this; exact trivial
  | number b =>
    have : specs = [] := by simpa [collectEntry] using h.symm
    subst this; exact trivial
  | str s =>
    have : specs = [] := by simpa [collectEntry] using h.symm
    subst this; exact trivial
  | obj fs =>
    rw [collectEntry_obj_eq] at h
    simp only [Option.map_eq_some'] at h
    obtain ⟨inner, hinner, rfl⟩ := h
    rw [specsOrderedFrom_append]
    refine ⟨collectObj_ordered fs inner hinner em, ?_, trivial⟩
    intro n hn
    have := classRefs_covered_obj fs inner hinner n hn
    exact List.mem_append.2 (Or.inl (List.mem_reverse.2 this))
  | arr xs =>
    cases xs with
    | nil =>
      have : specs = [] := by simpa [collectEntry] using h.symm
      subst this; exact trivial
    | cons firstItem r =>
      by_cases htf : typeofObject firstItem = true
      · rw [collectEntry, if_pos htf] at h
        cases hc : collectNested firstItem with
        | none => rw [hc] at h; simp at h
        | some inner =>
          rw [hc] at h
          cases hj : jsEntries firstItem with
          | none => rw [hj] at h; simp at h
          | some entries =>
            rw [hj] at h
            simp only [Option.some_inj] at h
            subst h
            rw [specsOrderedFrom_append]
            refine ⟨collectNested_ordered firstItem inner hc em, ?_, trivial⟩
            intro n hn
            have := classRefs_covered_json firstItem inner entries hc hj n hn
            exact List.mem_append.2 (Or.inl (List.mem_reverse.2 this))
      · rw [collectEntry, if_neg htf] at h
        have : specs = [] := by simpa using h.symm
        subst this; exact trivial
termination_by structural value

end

set_option maxRecDepth 16000 in
/-- Claim C4 (counterexample): on the object with sibling fields a and A,
both holding objects, the two keys capitalize to the same class name A; two
class definitions named A are emitted, so the named class type A referenced
by the root's fields has two, not exactly one, corresponding class
definitions appearing earlier in the output text. -/
theorem c4_duplicate_sibling_class_names :
    collectNested (Json.obj [("a", Json.obj [("x", Json.number true)]),
                             ("A", Json.obj [("y", Json.number true)])]) =
      some [("A", [("x", Json.number true)]), ("A", [("y", Json.number true)])] ∧
    countSubstr
      ((generateDartClass
        (Json.obj [("a", Json.obj [("x", Json.number true)]),
                   ("A", Json.obj [("y", Json.number true)])]) "Root").getD "")
      ("\nclass A \x7b\n") = 2 :=
  ⟨rfl, by decide⟩

/-- Claim C4 (amended): every named class type referenced by a field of an
emitted class has at least one corresponding class definition emitted
earlier: the full emission sequence (the collected specifications followed by
the root class) satisfies the ordering invariant `specsOrdered`, and the
output text is exactly the rendering of that sequence in order.  Sibling
fields whose keys capitalize to the same class name each emit their own
definition, so a referenced name can have more than one earlier
definition. -/
theorem c4_every_reference_defined_earlier :
    ∀ (v : Json) (c : String) (specs : List ClassSpec)
      (entries : List (String × Json)),
      collectNested v = some specs → jsEntries v = some entries →
      specsOrdered (specs ++ [(c, entries)]) ∧
      generateDartClass v c = some (renderSpecs specs ++ renderSpec (c, entries)) := by
  intro v c specs entries hc hj
  constructor
  · rw [specsOrdered, specsOrderedFrom_append]
    refine ⟨collectNested_ordered v specs hc [], ?_, trivial⟩
    intro n hn
    have := classRefs_covered_json v specs entries hc hj n hn
    exact List.mem_append.2 (Or.inl (List.mem_reverse.2 this))
  · have h1 : generateNestedClasses v c = some (renderSpecs specs) := by
      rw [generateNestedClasses_eq_render, hc]; rfl
    have h2 : generateClassContent v c = some (classContentCore c entries) := by
      rw [generateClassContent, hj]; rfl
    unfold generateDartClass
    rw [h1, h2]
    simp [renderSpec, String.append_assoc]

/-- Witness for claim C4 on the object whose field a holds the object with
the single integer field x, root class name Root. -/
theorem c4_every_reference_defined_earlier_witness :
    specsOrdered ([("A", [("x", Json.number true)])] ++
      [("Root", [("a", Json.obj [("x", Json.number true)])])]) ∧
    generateDartClass (Json.obj [("a", Json.obj [("x", Json.number true)])]) "Root" =
      some (renderSpecs [("A", [("x", Json.number true)])] ++
            renderSpec ("Root", [("a", Json.obj [("x", Json.number true)])])) :=
  c4_every_reference_defined_earlier
    (Json.obj [("a", Json.obj [("x", Json.number true)])]) "Root"
    [("A", [("x", Json.number true)])]
    [("a", Json.obj [("x", Json.number true)])] rfl rfl
